import Mathlib

/-!
Verification development for the calculus-engine core of the IntegraMente
backend (a Python/FastAPI service built on sympy, scipy and cachetools).

The definitions below are shallow embeddings of the functions in
`app/services/enhanced_math_service.py` and `app/core/cache_manager.py`.
Conventions used throughout:

* Python/sympy numbers are modelled as rationals (`ℚ`); exact rational
  arithmetic stands in for the floating point arithmetic of the source
  wherever the claims under study do not depend on rounding.
* Calls into the external libraries (sympy's `integrate`, `series`,
  `simplify`, `diff`, `solve`, scipy's `quad`, `romberg`, `simpson`) are
  modelled either by restricted executable models (for `solve`/`denom`,
  restricted to the fragments the claims exercise) or by oracle
  parameters (functions/`Except` values supplied as arguments), which is
  the explicit-state-passing rendering of "the library call returned r /
  raised an exception".
* A Python `try: ... except: ...` around a library call becomes a
  `match` on the `Option`/`Except` result of the corresponding oracle.
* Wall-clock measurements (`time.time()` deltas) become explicit
  numeric arguments.
-/

/-! ## Expression trees (sympy `Expr`, restricted)

Sympy expression trees as the analyser sees them: `sub` and `div` are not
constructors (sympy represents `a - b` as `Add(a, Mul(-1, b))` and `a / b`
as `Mul(a, Pow(b, -1))`); rational literals are `numRat` (sympy `Rational`,
which includes `Integer`), floating literals are `numFloat` (sympy `Float`,
not a `Rational`).  The single free variable `x` is `sym`. -/

inductive FuncKind where
  | sin | cos | tan | sec | csc | cot
  | sinh | cosh | tanh | exp | log
  | abs | asin | acos | atan
deriving DecidableEq, Repr

inductive SymExpr where
  | numRat (q : ℚ)
  | numFloat (q : ℚ)
  | sym
  | add (a b : SymExpr)
  | mul (a b : SymExpr)
  | pow (a b : SymExpr)
  | func (k : FuncKind) (a : SymExpr)
deriving DecidableEq, Repr

/-- The sympy literal `1` (used for `denominator != 1` tests). -/
def one : SymExpr := .numRat 1

/-- Python's `abs` on a number. -/
def absQ (q : ℚ) : ℚ := if q < 0 then -q else q

/-- Model of `a - b`, in sympy represented as `Add(a, Mul(-1, b))`. -/
def subE (a b : SymExpr) : SymExpr := .add a (.mul (.numRat (-1)) b)

/-- Model of `a / b`, in sympy represented as `Mul(a, Pow(b, -1))`. -/
def divE (a b : SymExpr) : SymExpr := .mul a (.pow b (.numRat (-1)))

/-- Right-nested product of a list of factors, `Mul(*factors)`;
the empty product is `1`. -/
def mulList : List SymExpr → SymExpr
  | [] => one
  | [e] => e
  | e :: es => .mul e (mulList es)

/-- Model of `expr.as_ordered_factors()` on the tree: the multiset of top-level
factors of a (nested binary) product. -/
def orderedFactors : SymExpr → List SymExpr
  | .mul a b => orderedFactors a ++ orderedFactors b
  | e => [e]

/-! ## Complexity analyser (`_analisar_complexidade_funcao`) -/

/-- Model of `len(sp.preorder_traversal(expr))`: total number of nodes of the tree. -/
def nosTotais : SymExpr → ℕ
  | .add a b => 1 + nosTotais a + nosTotais b
  | .mul a b => 1 + nosTotais a + nosTotais b
  | .pow a b => 1 + nosTotais a + nosTotais b
  | .func _ a => 1 + nosTotais a
  | _ => 1

/-- The five operation classes counted by the analyser's `operacoes`
dictionary. -/
inductive OpClass where
  | trig | expo | logc | pot | rac
deriving DecidableEq, Repr

/-- Classification of a single node, mirroring the source's
`isinstance` chain: trigonometric functions, then
`exp`/`sinh`/`cosh`/`tanh`, then `log`, then `Pow`, then `Rational`
(which in sympy includes every `Integer`); anything else is
unclassified. -/
def classifyNode : SymExpr → Option OpClass
  | .func k _ =>
    if k = .sin ∨ k = .cos ∨ k = .tan ∨ k = .sec ∨ k = .csc ∨ k = .cot then
      some .trig
    else if k = .exp ∨ k = .sinh ∨ k = .cosh ∨ k = .tanh then
      some .expo
    else if k = .log then
      some .logc
    else
      none
  | .pow _ _ => some .pot
  | .numRat _ => some .rac
  | _ => none

/-- Indicator: `1` if this node falls in class `c`. -/
def nodeInd (c : OpClass) (e : SymExpr) : ℕ :=
  if classifyNode e = some c then 1 else 0

/-- Number of nodes of the tree classified into class `c`
(one entry of the `operacoes` histogram). -/
def countClass (c : OpClass) : SymExpr → ℕ
  | .numRat q => nodeInd c (.numRat q)
  | .numFloat q => nodeInd c (.numFloat q)
  | .sym => nodeInd c .sym
  | .add a b => nodeInd c (.add a b) + countClass c a + countClass c b
  | .mul a b => nodeInd c (.mul a b) + countClass c a + countClass c b
  | .pow a b => nodeInd c (.pow a b) + countClass c a + countClass c b
  | .func k a => nodeInd c (.func k a) + countClass c a

/-- Model of `sum(operacoes.values())`. -/
def somaOperacoes (e : SymExpr) : ℕ :=
  countClass .trig e + countClass .expo e + countClass .logc e +
    countClass .pot e + countClass .rac e

/-- Model of `complexidade = nos_totais + sum(operacoes.values()) * 2`. -/
def complexidadeScore (e : SymExpr) : ℕ :=
  nosTotais e + 2 * somaOperacoes e

/-- The part of the analyser's result dictionary that the validation gate
reads. -/
structure AnaliseComplexidade where
  complexidade : ℕ
  erro : Option String
deriving DecidableEq, Repr

/-- The `try:` body of `_analisar_complexidade_funcao`: traversal,
histogram, score. -/
def analisarBody (e : SymExpr) : AnaliseComplexidade :=
  ⟨complexidadeScore e, none⟩

/-- Model of `_analisar_complexidade_funcao` with its `except` clause: the body is
passed as an `Except` value (`.error` modelling an internal exception);
on failure the analyser reports the fixed dictionary
`\x7b'complexidade': 999, 'erro': 'Análise falhou'\x7d`. -/
def analisar_complexidade_funcao
    (body : Except String AnaliseComplexidade) : AnaliseComplexidade :=
  match body with
  | .ok a => a
  | .error _ => ⟨999, some ("Análise falhou")⟩

/-- Model of `settings.max_function_complexity` (`app/core/config.py`). -/
def max_function_complexity : ℕ := 1000

/-- The complexity gate of `validar_e_processar_funcao_avancada`:
the function is rejected exactly when
`analise['complexidade'] > settings.max_function_complexity`. -/
def rejeitadaPorComplexidade (a : AnaliseComplexidade) : Bool :=
  decide (a.complexidade > max_function_complexity)

/-! `AddsOp e e'` says that `e'` is obtained from `e` by adding one
operator node somewhere in the tree: some subtree `t` of `e` is replaced
by an operator node (`add`/`mul`/`pow`/`func`) having `t` among its
children. -/

inductive AddsOp : SymExpr → SymExpr → Prop where
  | wrapFunc (k : FuncKind) (e : SymExpr) : AddsOp e (.func k e)
  | wrapAddL (e x : SymExpr) : AddsOp e (.add e x)
  | wrapAddR (e x : SymExpr) : AddsOp e (.add x e)
  | wrapMulL (e x : SymExpr) : AddsOp e (.mul e x)
  | wrapMulR (e x : SymExpr) : AddsOp e (.mul x e)
  | wrapPowL (e x : SymExpr) : AddsOp e (.pow e x)
  | wrapPowR (e x : SymExpr) : AddsOp e (.pow x e)
  | congrAddL {a a'} (b : SymExpr) : AddsOp a a' → AddsOp (.add a b) (.add a' b)
  | congrAddR {b b'} (a : SymExpr) : AddsOp b b' → AddsOp (.add a b) (.add a b')
  | congrMulL {a a'} (b : SymExpr) : AddsOp a a' → AddsOp (.mul a b) (.mul a' b)
  | congrMulR {b b'} (a : SymExpr) : AddsOp b b' → AddsOp (.mul a b) (.mul a b')
  | congrPowL {a a'} (b : SymExpr) : AddsOp a a' → AddsOp (.pow a b) (.pow a' b)
  | congrPowR {b b'} (a : SymExpr) : AddsOp b b' → AddsOp (.pow a b) (.pow a b')
  | congrFunc {a a'} (k : FuncKind) : AddsOp a a' → AddsOp (.func k a) (.func k a')

/-! ## Singularity detection (`_detectar_singularidades`)

`sp.denom` and `sp.solve` are external sympy calls.  `spDenom` models
`sp.denom` structurally on the fragment of trees the claims exercise
(ratios built from `Mul`, negative-exponent `Pow`, and `Rational`
literals; `sp.denom` of an `Add` of ratios, which sympy combines over a
common denominator, is outside the modelled fragment and yields `1`).
`spSolve` models `sp.solve(_, x)` restricted to products of linear
factors (and `x^2 + c`, whose roots sympy reports as a complex pair for
`c > 0`); `none` models `sp.solve` raising, which the source catches. -/

/-- Sympy `Mul` with the automatic `1 * e = e` evaluation sympy performs
when `as_numer_denom` multiplies denominators. -/
def smartMul (a b : SymExpr) : SymExpr :=
  if a = one then b else if b = one then a else .mul a b

/-- Model of `sp.denom(expr)` on the supported fragment. -/
def spDenom : SymExpr → SymExpr
  | .numRat q => .numRat ((q.den : ℚ))
  | .mul a b => smartMul (spDenom a) (spDenom b)
  | .pow b e =>
    match e with
    | .numRat q =>
      if q < 0 then (if q = -1 then b else .pow b (.numRat (-q))) else one
    | _ => one
  | _ => one

/-- A root reported by `sp.solve`: a real rational value (for which
`float(root.evalf())` succeeds) or a non-real root (for which `float`
raises and the source's per-root `except: continue` fires). -/
inductive SpRoot where
  | realR (q : ℚ)
  | complexR
deriving DecidableEq, Repr

/-- Model of `sp.solve(p, x)` on products of linear factors, powers and
`x^2 + c`; `none` models the call raising. -/
def spSolve : SymExpr → Option (List SpRoot)
  | .sym => some [.realR 0]
  | .numRat _ => some []
  | .add .sym (.numRat q) => some [.realR (-q)]
  | .add (.numRat q) .sym => some [.realR (-q)]
  | .add (.pow .sym (.numRat 2)) (.numRat c) =>
    if 0 < c then some [.complexR, .complexR] else none
  | .mul a b =>
    match spSolve a, spSolve b with
    | some ra, some rb => some (ra ++ rb)
    | _, _ => none
  | .pow b (.numRat q) => if 0 < q then spSolve b else none
  | _ => none

/-- Model of `float(zero.evalf())` with the surrounding `try`/`except: continue`:
real roots convert, non-real roots are skipped. -/
def evalfFloat : SpRoot → Option ℚ
  | .realR q => some q
  | .complexR => none

/-- Insert into an ascending list, keeping duplicates (the sorting step
of Python's `sorted`). -/
def insertAsc (x : ℚ) : List ℚ → List ℚ
  | [] => [x]
  | y :: ys => if x ≤ y then x :: y :: ys else y :: insertAsc x ys

/-- Python `sorted` on a list of floats (ascending, stable). -/
def sortedAsc (l : List ℚ) : List ℚ := l.foldr insertAsc []

/-- Model of `_detectar_singularidades(expr, a, b)`: zeros of the denominator
that convert to float and lie in the closed interval `[a, b]`, sorted;
`[]` when the denominator is `1` or `sp.solve` raises. -/
def detectar_singularidades (e : SymExpr) (a b : ℚ) : List ℚ :=
  let d := spDenom e
  if d = one then []
  else
    match spSolve d with
    | none => []
    | some zeros =>
      sortedAsc (((zeros.filterMap evalfFloat).filter
        (fun q => decide (a ≤ q ∧ q ≤ b))))

/-! ## Adaptive sampling (`_gerar_pontos_adaptativos`) -/

/-- Model of `np.linspace(a, b, n)`: `n` evenly spaced points from `a` to `b`
inclusive (`[a]` for `n = 1`, `[]` for `n = 0`). -/
def linspace (a b : ℚ) (n : ℕ) : List ℚ :=
  if n = 0 then []
  else if n = 1 then [a]
  else (List.range n).map (fun (i : ℕ) => a + ((b - a) * (i : ℚ)) / ((n : ℚ) - 1))

/-- The `1e-6` offset that keeps sample points off the singularity. -/
def epsOff : ℚ := 1 / 1000000

/-- Insert into a strictly ascending list, dropping duplicates
(`sorted(list(set(...)))` builds exactly a strictly ascending
enumeration of the distinct values). -/
def insertSD (x : ℚ) : List ℚ → List ℚ
  | [] => [x]
  | y :: ys =>
    if x < y then x :: y :: ys
    else if x = y then y :: ys
    else y :: insertSD x ys

/-- Model of `sorted(list(set(l)))`. -/
def sortedDedup (l : List ℚ) : List ℚ := l.foldr insertSD []

/-- The extra points the source packs around one singularity: nothing
unless `a < s < b`; otherwise `res / 10` points on each side of `s`,
inside windows of half-width `delta = min(0.1*(b-a), abs(b-a)/20)` that
are clamped to the interval (`max(a, s-delta)` / `min(b, s+delta)`) and
excluding `s` itself by the `1e-6` offset. -/
def janelaPontos (a b : ℚ) (res : ℕ) (s : ℚ) : List ℚ :=
  if a < s ∧ s < b then
    let delta := min ((1 / 10) * (b - a)) (absQ (b - a) / 20)
    linspace (max a (s - delta)) (s - epsOff) (res / 10) ++
      linspace (s + epsOff) (min b (s + delta)) (res / 10)
  else []

/-- Model of `_gerar_pontos_adaptativos(a, b, resolucao, singularidades)`. -/
def gerar_pontos_adaptativos (a b : ℚ) (res : ℕ) (sings : List ℚ) :
    List ℚ :=
  if sings = [] then linspace a b res
  else
    let base := linspace a b (res / 2)
    let extra := sings.foldl (fun acc s => acc ++ janelaPontos a b res s) []
    sortedDedup (base ++ extra)

/-- The per-singularity windows exactly as claim C8 words them: width
`min(0.1*(b-a), (b-a)/20)` on each side of the singularity, with no
clamping to `[a, b]`. -/
def janelaPontosClaim (a b : ℚ) (res : ℕ) (s : ℚ) : List ℚ :=
  if a < s ∧ s < b then
    let delta := min ((1 / 10) * (b - a)) ((b - a) / 20)
    linspace (s - delta) (s - epsOff) (res / 10) ++
      linspace (s + epsOff) (s + delta) (res / 10)
  else []

/-- The sampler exactly as claim C8 words it. -/
def gerarPontosClaim (a b : ℚ) (res : ℕ) (sings : List ℚ) : List ℚ :=
  if sings = [] then linspace a b res
  else
    let base := linspace a b (res / 2)
    let extra := sings.foldl (fun acc s => acc ++ janelaPontosClaim a b res s) []
    sortedDedup (base ++ extra)

/-- The sampler as amended: identical to the claim's wording except that
each window is clamped to the interval, left endpoint `max(a, s - delta)`
and right endpoint `min(b, s + delta)`, with `delta` computed from
`abs(b - a)` in the `/20` term. -/
def gerarPontosAmended (a b : ℚ) (res : ℕ) (sings : List ℚ) : List ℚ :=
  if sings = [] then linspace a b res
  else
    let base := linspace a b (res / 2)
    let extra := sings.foldl (fun acc s => acc ++ janelaPontos a b res s) []
    sortedDedup (base ++ extra)

/-! ## Cache manager (`app/core/cache_manager.py`)

`expression_cache_key` builds a Python dictionary from the normalised
expression text, the positional arguments and the (sorted) keyword
arguments, takes `str()` of it and returns the MD5 hex digest of that
string.  The embedding returns the serialised string itself — the exact
MD5 preimage: two calls produce the same digest exactly when they
produce the same preimage (up to MD5 collisions, which the source
ignores), so key (in)equality is settled on the preimages. -/

/-- A Python value appearing in a parameter list.  `pfloat n` is the
float of integral value `n`, whose `repr` is `"n.0"` (the only floats
the claims exercise); `pint n` is the int `n`, whose `repr` is `"n"`. -/
inductive PyVal where
  | pint (n : ℤ)
  | pfloat (n : ℤ)
  | pstr (s : String)
deriving DecidableEq, Repr

/-- Python `repr` of a parameter value (as used by `str()` on a
container). -/
def pyRepr : PyVal → String
  | .pint n => toString n
  | .pfloat n => toString n ++ (".0")
  | .pstr s => ("\x27") ++ s ++ ("\x27")

/-- Python `str` of the `args` tuple (one-element tuples carry a
trailing comma). -/
def pyTupleStr (args : List PyVal) : String :=
  match args with
  | [v] => ("(") ++ pyRepr v ++ (",)")
  | _ => ("(") ++ String.intercalate (", ") (args.map pyRepr) ++ (")")

/-- ASCII lower-casing of one character (what `str.lower()` does on the
expression texts in play). -/
def lowerChar (c : Char) : Char :=
  if 65 ≤ c.toNat ∧ c.toNat ≤ 90 then Char.ofNat (c.toNat + 32) else c

/-- One character-level pass implementing
`expr_str.replace(' ', '').replace('^', '**').lower()` (the three
steps commute into a single pass: spaces are dropped, `'^'` becomes
`"**"`, letters are lower-cased). -/
def normalizeChars : List Char → List Char
  | [] => []
  | c :: cs =>
    if c = (' ') then normalizeChars cs
    else if c = ('^') then ('*') :: ('*') :: normalizeChars cs
    else lowerChar c :: normalizeChars cs

/-- The normalisation applied to the expression text:
`expr_str.replace(' ', '').replace('^', '**').lower()`. -/
def normalizeExpr (s : String) : String :=
  ⟨normalizeChars s.data⟩

/-- Model of `expression_cache_key(expr_str, *args)` with no keyword arguments:
the exact string the source feeds to `hashlib.md5` — i.e.
`str(\x7b'expression': normalized, 'args': args, 'kwargs': \x7b\x7d\x7d)`. -/
def expression_cache_key (exprStr : String) (args : List PyVal) : String :=
  ("\x7b\x27expression\x27: \x27") ++ normalizeExpr exprStr ++
    ("\x27, \x27args\x27: ") ++ pyTupleStr args ++
    (", \x27kwargs\x27: \x7b\x7d\x7d")

/-! The memoisation wrapper `cached_calculation` in front of a
`CacheManager` backed by a `cachetools.TTLCache`.  The store is a list
of `(key, value, inserted_at)` entries; an entry is live at time `now`
while `now < inserted_at + ttl` (TTLCache expires entries once
`timer() >= entry.expires`).  Capacity eviction never triggers in the
scenarios the claims describe and is not modelled.  `time.time()` is
passed in as `now`, and the measured `execution_time` of the wrapped
function as `duration`; the wrapped function's return value is the
`compute` argument (`none` = the function returned `None`). -/

structure CacheState (α : Type) where
  store : List (String × α × ℚ)
  hits : ℕ
  misses : ℕ
  ttl : ℚ

/-- Lookup of a live entry (no counter update). -/
def cacheLookup {α} (st : CacheState α) (now : ℚ) (key : String) :
    Option α :=
  match st.store.find? (fun e => e.1 == key) with
  | some (_, v, t) => if now < t + st.ttl then some v else none
  | none => none

/-- Model of `CacheManager.get`: returns the live entry and bumps `hit_count`,
or bumps `miss_count` and returns `None`. -/
def cacheGet {α} (st : CacheState α) (now : ℚ) (key : String) :
    Option α × CacheState α :=
  match cacheLookup st now key with
  | some v => (some v, { st with hits := st.hits + 1 })
  | none => (none, { st with misses := st.misses + 1 })

/-- Model of `CacheManager.set`: stores the value under the key at time `now`
(overwriting any previous entry for the key). -/
def cacheSet {α} (st : CacheState α) (now : ℚ) (key : String) (v : α) :
    CacheState α :=
  { st with store := (key, v, now) :: st.store.filter (fun e => e.1 != key) }

/-- The `cached_calculation` wrapper body for one call: consult the
cache; on a hit return the cached value; on a miss run the computation
and store the result only when `execution_time < 10` seconds and the
result is not `None`. -/
def cached_calculation {α} (st : CacheState α) (now : ℚ) (key : String)
    (compute : Option α) (duration : ℚ) : Option α × CacheState α :=
  let g := cacheGet st now key
  match g.1 with
  | some v => (some v, g.2)
  | none =>
    match compute with
    | some v =>
      if duration < 10 then (some v, cacheSet g.2 now key v)
      else (some v, g.2)
    | none => (none, g.2)

/-! ## Numeric integration (`_integrar_com_metodo`,
`calcular_integral_numerica_avancada`)

The scipy calls are oracles: each field gives, for bounds `a b` (and the
tolerance where the source passes one), either the library's return
value or `.error msg` for a raised exception.  `quadTol` is
`quad(func, a, b, epsabs=tol, epsrel=tol, limit=max_subdivisions)`;
`rombergRun` is the whole body of the romberg branch's inner `try`
(the `linspace` sampling plus `romberg(func, a, b, tol=tol)`);
`quadEps` is `quad(func, a, b, epsabs=tol)`; `simpsonRun` is the fixed
branch (`func` evaluations plus composite Simpson); `quadPlain` is the
bare fallback `quad(func, a, b)`.  The `tempo_execucao` metadata field
(a wall-clock measurement) is not modelled. -/

instance {e a : Type} [DecidableEq e] [DecidableEq a] :
    DecidableEq (Except e a)
  | .ok x, .ok y =>
    if h : x = y then .isTrue (h ▸ rfl)
    else .isFalse (fun hh => h (Except.ok.inj hh))
  | .ok _, .error _ => .isFalse (fun hh => Except.noConfusion hh)
  | .error _, .ok _ => .isFalse (fun hh => Except.noConfusion hh)
  | .error x, .error y =>
    if h : x = y then .isTrue (h ▸ rfl)
    else .isFalse (fun hh => h (Except.error.inj hh))

structure QuadOracle where
  quadTol : ℚ → ℚ → ℚ → Except String (ℚ × ℚ)
  rombergRun : ℚ → ℚ → ℚ → Except String ℚ
  quadEps : ℚ → ℚ → ℚ → Except String (ℚ × ℚ)
  simpsonRun : ℚ → ℚ → Except String ℚ
  quadPlain : ℚ → ℚ → Except String (ℚ × ℚ)

/-- The metadata dictionary of an integration result: the `metodo` tag
and, for the simple fallback, the `erro` entry carrying `str(e)` of the
exception that drove it there. -/
structure MetodoInfo where
  metodo : String
  erroInfo : Option String
deriving DecidableEq, Repr

/-- Model of `settings.default_resolution` (`app/core/config.py`). -/
def default_resolution : ℕ := 400

/-- Model of `_integrar_com_metodo(func, a, b, metodo, tolerancia)`: dispatch on
the method, and on any exception fall back to the bare
`quad(func, a, b)`; an exception from that bare call propagates to the
caller. -/
def integrar_com_metodo (o : QuadOracle) (a b : ℚ) (metodo : String)
    (tol : ℚ) : Except String (ℚ × ℚ × MetodoInfo) :=
  let primary : Except String (ℚ × ℚ × MetodoInfo) :=
    if metodo = ("adaptive") then
      (o.quadTol a b tol).map
        (fun r => (r.1, r.2, ⟨("Quadratura Adaptativa"), none⟩))
    else if metodo = ("romberg") then
      match o.rombergRun a b tol with
      | .ok r => .ok (r, tol, ⟨("Romberg"), none⟩)
      | .error _ =>
        (o.quadEps a b tol).map
          (fun r => (r.1, r.2, ⟨("Fallback Adaptativa"), none⟩))
    else
      (o.simpsonRun a b).map
        (fun r => (r, absQ r * (1 / (default_resolution : ℚ)),
          ⟨("Simpson Composta"), none⟩))
  match primary with
  | .ok (r, e, m) => .ok (r, absQ e, m)
  | .error msg =>
    match o.quadPlain a b with
    | .ok (r, e) => .ok (r, absQ e, ⟨("Fallback Simples"), some msg⟩)
    | .error m2 => .error m2

/-- Model of `calcular_integral_numerica_avancada`: lambdify conversion (the
`lambdifyOk` flag; when every backend fails the source raises
`ValueError("Não foi possível converter para função numérica")`), then
`_integrar_com_metodo`; any exception is re-raised as
`ValueError("Erro no cálculo numérico avançado: " + str(e))`. -/
def calcular_integral_numerica_avancada (o : QuadOracle)
    (lambdifyOk : Bool) (a b : ℚ) (metodo : String) (tol : ℚ) :
    Except String (ℚ × ℚ × MetodoInfo) :=
  let inner : Except String (ℚ × ℚ × MetodoInfo) :=
    if lambdifyOk then integrar_com_metodo o a b metodo tol
    else .error ("Não foi possível converter para função numérica")
  match inner with
  | .ok r => .ok r
  | .error e => .error (("Erro no cálculo numérico avançado: ") ++ e)

/-! ## Symbolic antiderivative resolver
(`calcular_integral_simbolica_avancada`, indefinite part)

The sympy calls are oracles: `integrate e` is `sp.integrate(e, x)`
(`none` = raised), `seriesTrunc e` is
`sp.series(e, x, 0, 10).removeO()` (`none` = raised), `simplifyE` is
`sp.simplify`, `diffE` is `sp.diff(_, x)` (both total). -/

structure SymOracles where
  integrate : SymExpr → Option SymExpr
  seriesTrunc : SymExpr → Option SymExpr
  simplifyE : SymExpr → SymExpr
  diffE : SymExpr → SymExpr

/-- The result dictionary of the symbolic resolver (the fields claim C5
is about): `sucesso`, the simplified antiderivative, and
`metodo_integracao`. -/
structure ResultadoSimbolico where
  sucesso : Bool
  antiderivada : Option SymExpr
  metodo : Option String
deriving DecidableEq

/-- The four-strategy fallback chain of
`calcular_integral_simbolica_avancada` (called without definite bounds):
direct integration; series expansion to order 10 then integration;
simplification then integration; for a top-level product, integration
by parts with `u` the first ordered factor, `dv` the product of the
rest, and the inner integral `∫ v·du` computed by one direct
`sp.integrate` call.  The successful branch's antiderivative is
simplified before being returned. -/
def calcular_integral_simbolica_avancada (o : SymOracles) (e : SymExpr) :
    ResultadoSimbolico :=
  let tentativa : Option (SymExpr × String) :=
    match o.integrate e with
    | some anti => some (anti, ("integração_direta"))
    | none =>
      match (o.seriesTrunc e).bind o.integrate with
      | some anti => some (anti, ("expansão_serie"))
      | none =>
        match o.integrate (o.simplifyE e) with
        | some anti => some (anti, ("simplificação_prévia"))
        | none =>
          match e with
          | .mul a b =>
            match orderedFactors (.mul a b) with
            | u :: d :: ds =>
              match o.integrate (mulList (d :: ds)) with
              | some v =>
                match o.integrate (.mul v (o.diffE u)) with
                | some w => some (subE (.mul u v) w, ("integração_por_partes"))
                | none => none
              | none => none
            | _ => none
          | _ => none
  match tentativa with
  | none => ⟨false, none, none⟩
  | some (anti, m) => ⟨true, some (o.simplifyE anti), some m⟩

/-- Strategy 1 succeeds: direct integration. -/
def strat1 (o : SymOracles) (e : SymExpr) : Bool :=
  (o.integrate e).isSome

/-- Strategy 2 succeeds: series expansion to order 10, then
integration. -/
def strat2 (o : SymOracles) (e : SymExpr) : Bool :=
  ((o.seriesTrunc e).bind o.integrate).isSome

/-- Strategy 3 succeeds: simplification, then direct integration. -/
def strat3 (o : SymOracles) (e : SymExpr) : Bool :=
  (o.integrate (o.simplifyE e)).isSome

/-- Strategy 4 succeeds: for a top-level product, `v = ∫dv` and the
single direct integration of `v·du` both succeed. -/
def strat4 (o : SymOracles) (e : SymExpr) : Bool :=
  match e with
  | .mul a b =>
    match orderedFactors (.mul a b) with
    | u :: d :: ds =>
      ((o.integrate (mulList (d :: ds))).bind
        (fun v => o.integrate (.mul v (o.diffE u)))).isSome
    | _ => false
  | _ => false

/-- The resolver exactly as claim C5 words it: identical strategies 1-3,
but strategy 4 computes `∫ v·du` by recursing into the whole resolver,
with the recursion depth bounded by 3. -/
def resolverClaim (o : SymOracles) : ℕ → SymExpr → Option SymExpr
  | 0, _ => none
  | n + 1, e =>
    match o.integrate e with
    | some anti => some anti
    | none =>
      match (o.seriesTrunc e).bind o.integrate with
      | some anti => some anti
      | none =>
        match o.integrate (o.simplifyE e) with
        | some anti => some anti
        | none =>
          match e with
          | .mul a b =>
            match orderedFactors (.mul a b) with
            | u :: d :: ds =>
              match o.integrate (mulList (d :: ds)) with
              | some v =>
                (resolverClaim o n (.mul v (o.diffE u))).map
                  (fun w => subE (.mul u v) w)
              | none => none
            | _ => none
          | _ => none

/-! ## Limit evaluation (`calcular_limite_avancado`, result
classification)

A computed symbolic limit, as far as the classification code can tell it
apart: a finite value whose `float(_.evalf())` succeeds; `sp.oo`;
`-sp.oo`; `sp.nan`; or anything else for which `float(_.evalf())` raises
(complex values, complex infinity, unevaluated expressions). -/

inductive SpLimit where
  | real (q : ℚ)
  | posInf
  | negInf
  | nan
  | nonNumeric
deriving DecidableEq, Repr

/-- The numeric value stored in `valor_limite` (`±∞` encoded as IEEE
infinities in the source). -/
inductive LimVal where
  | fin (q : ℚ)
  | pinf
  | ninf
deriving DecidableEq, Repr

/-- The selection of `limite_final`: the direct limit when it did not
error, otherwise the L'Hôpital result if one was produced, otherwise the
series result if one was produced, otherwise nothing usable (the stored
error string).  Also returns the `metodo_usado` tag. -/
def escolherLimite (direct : Except String SpLimit)
    (lhopital serie : Option SpLimit) : Option SpLimit × String :=
  match direct with
  | .ok l => (some l, ("direto"))
  | .error _ =>
    match lhopital with
    | some l => (some l, ("lhopital"))
    | none =>
      match serie with
      | some l => (some l, ("serie"))
      | none => (none, ("direto"))

/-- The `valor_limite` / `existe_limite` computation of
`calcular_limite_avancado`, branch for branch: anything outside
`[oo, -oo, nan, None]` that is not an error string goes through
`float(_.evalf())` (success sets `existe` and the value, an exception
leaves `existe = False`); `oo` and `-oo` set the IEEE infinities and
`existe = True`; everything else leaves `(None, False)`. -/
def classificarLimite (lf : Option SpLimit) : Option LimVal × Bool :=
  match lf with
  | some (.real q) => (some (.fin q), true)
  | some .nonNumeric => (none, false)
  | some .posInf => (some .pinf, true)
  | some .negInf => (some .ninf, true)
  | some .nan => (none, false)
  | none => (none, false)

/-- Model of `calcular_limite_avancado`, reduced to the fields claim C7 is
about: the chosen limit's numeric value, the `existe_limite` flag and
the `metodo_usado` tag. -/
def calcular_limite_avancado (direct : Except String SpLimit)
    (lhopital serie : Option SpLimit) : Option LimVal × Bool × String :=
  let c := escolherLimite direct lhopital serie
  let v := classificarLimite c.1
  (v.1, v.2, c.2)

/-- Model of `existe_limite` as claim C7 words it: true exactly when the chosen
limit is a finite real or a signed infinity. -/
def specExiste : Option SpLimit → Bool
  | some (.real _) => true
  | some .posInf => true
  | some .negInf => true
  | _ => false

/-- Model of `valor_limite` as claim C7 words it: the finite value, the IEEE
infinity of matching sign, and absent in every other case. -/
def specValor : Option SpLimit → Option LimVal
  | some (.real q) => some (.fin q)
  | some .posInf => some .pinf
  | some .negInf => some .ninf
  | _ => none

/-! ## Concrete fixtures used by the theorems below -/

/-- Oracle for the degenerate-interval experiment: the adaptive
`quad` call answers `(7, 3/10)` (any call on a zero-width interval
actually returns `(0.0, 0.0)`; a distinguishable value makes the
invocation visible); every other library call raises. -/
def oC3 : QuadOracle where
  quadTol := fun _ _ _ => .ok (7, 3)
  rombergRun := fun _ _ _ => .error ("unused")
  quadEps := fun _ _ _ => .error ("unused")
  simpsonRun := fun _ _ => .error ("unused")
  quadPlain := fun _ _ => .error ("unused")

/-- The `dv` factor for the integration-by-parts experiment. -/
def dv0 : SymExpr := .func .exp .sym

/-- The `v = ∫ dv` returned by the oracle. -/
def vg : SymExpr := .func .exp .sym

/-- An expression whose series expansion the oracle can integrate. -/
def w0 : SymExpr := .pow .sym (.numRat 2)

/-- The inner integrand `v * du` arising in the experiment
(`du = 1`). -/
def t0 : SymExpr := .mul vg one

/-- The product fed to the resolver in the experiment. -/
def e0C5 : SymExpr := .mul .sym dv0

/-- Oracle under which direct/series/simplified integration all fail
on the product and on `v*du`, but the series expansion of `v*du`
integrates — so a resolver that recursed into itself for `∫ v·du`
would succeed where a single direct `sp.integrate` call fails. -/
def oC5 : SymOracles where
  integrate := fun e =>
    if e = dv0 then some vg
    else if e = w0 then some (.pow .sym (.numRat 3))
    else none
  seriesTrunc := fun e => if e = t0 then some w0 else none
  simplifyE := fun e => e
  diffE := fun _ => one

/-- Oracle for the romberg-fallback experiment: `romberg` raises, the
tolerance-carrying fallback `quad(..., epsabs=tol)` answers
`(7, 1/100)`, and the bare `quad` would have answered `(99, 0)`. -/
def oC6c : QuadOracle where
  quadTol := fun _ _ _ => .error ("unused")
  rombergRun := fun _ _ _ => .error ("romberg falhou")
  quadEps := fun _ _ _ => .ok (7, 1)
  simpsonRun := fun _ _ => .error ("unused")
  quadPlain := fun _ _ => .ok (99, 0)

/-- Oracle for the adaptive-fallback witness: the primary adaptive
`quad` raises and the bare `quad` answers `(5, 2)`. -/
def oC6w : QuadOracle where
  quadTol := fun _ _ _ => .error ("falha primária")
  rombergRun := fun _ _ _ => .error ("unused")
  quadEps := fun _ _ _ => .error ("unused")
  simpsonRun := fun _ _ => .error ("unused")
  quadPlain := fun _ _ => .ok (5, 2)

/-- A fresh cache (`CacheManager(maxsize=1000, ttl=3600)`): empty
store, zero counters. -/
def st0 : CacheState ℤ := ⟨[], 0, 0, 3600⟩

/-- The linear factor `x - c` (sympy `Add(x, -c)`). -/
def linFac (c : ℚ) : SymExpr := .add .sym (.numRat (-c))

/-- The `(x-1)(x-2)(x-3)(x-4)(x-5)(x-6)`. -/
def p6 : SymExpr :=
  mulList [linFac 1, linFac 2, linFac 3, linFac 4, linFac 5, linFac 6]

/-- The `1 / ((x-1)(x-2)(x-3)(x-4)(x-5)(x-6))`: six real denominator
roots. -/
def e6 : SymExpr := divE one p6

/-- The `1 / x`. -/
def eInv : SymExpr := divE one .sym

/-! ## Helper lemmas -/

theorem addsOp_nosTotais {e e' : SymExpr} (h : AddsOp e e') :
    nosTotais e ≤ nosTotais e' := by
  induction h <;> simp only [nosTotais] <;> omega

theorem addsOp_countClass (c : OpClass) {e e' : SymExpr}
    (h : AddsOp e e') : countClass c e ≤ countClass c e' := by
  induction h <;> simp only [countClass, nodeInd, classifyNode] <;> omega

/-! ## Claims -/

/-- Claim C1 (refuted, code diverges from the spec): the MD5 preimages
built by `expression_cache_key` for `("area", "x^2", 0, 2.0)` and for
`("area", "x^2", 0.0, 2)` differ — Python's `str()` serialises the int
`0` as `"0"` but the equal-valued float `0.0` as `"0.0"`, so the two
parameter lists do **not** fingerprint identically. -/
theorem claimC1_theorem :
    expression_cache_key ("x^2") [.pstr ("area"), .pint 0, .pfloat 2] ≠
      expression_cache_key ("x^2") [.pstr ("area"), .pfloat 0, .pint 2] := by
  decide

/-- Claim C3 (refuted, code diverges from the spec): on the degenerate
interval `[1, 1]` the integrator does **not** short-circuit: it invokes
the selected adaptive strategy (the result is whatever `quad` returns —
here the oracle's distinguishable `(7, 3/10)`) and tags the metadata
with the strategy's name, never with `"degenerate"`. -/
theorem claimC3_theorem :
    integrar_com_metodo oC3 1 1 ("adaptive") 1 =
        .ok (7, 3, ⟨("Quadratura Adaptativa"), none⟩) ∧
      ("Quadratura Adaptativa" : String) ≠ ("degenerate") := by
  constructor
  · decide
  · decide

/-- Claim C7: `existe_limite` is true exactly when the chosen symbolic
limit is a finite evaluable real or a signed infinity, the signed
infinities are returned as the IEEE infinities, and in every other case
(NaN, non-numeric/complex, or no usable result) the flag is false and
the numeric value is absent — i.e. the code's classification coincides
with the spec's predicate on the chosen limit. -/
theorem claimC7_theorem (direct : Except String SpLimit)
    (lhopital serie : Option SpLimit) :
    (calcular_limite_avancado direct lhopital serie).2.1 =
        specExiste (escolherLimite direct lhopital serie).1 ∧
      (calcular_limite_avancado direct lhopital serie).1 =
        specValor (escolherLimite direct lhopital serie).1 := by
  rcases h : (escolherLimite direct lhopital serie).1 with _ | l
  · simp [calcular_limite_avancado, classificarLimite, specExiste,
      specValor, h]
  · cases l <;>
      simp [calcular_limite_avancado, classificarLimite, specExiste,
        specValor, h]

/-- Claim C9: adding any operator node anywhere in the expression tree
never decreases the analyser's complexity score
(`node count + 2 * Σ classified-operation counts`). -/
theorem claimC9_theorem (e e' : SymExpr) (h : AddsOp e e') :
    complexidadeScore e ≤ complexidadeScore e' := by
  have h0 := addsOp_nosTotais h
  have h1 := addsOp_countClass .trig h
  have h2 := addsOp_countClass .expo h
  have h3 := addsOp_countClass .logc h
  have h4 := addsOp_countClass .pot h
  have h5 := addsOp_countClass .rac h
  simp only [complexidadeScore, somaOperacoes]
  omega

/-- Witness for claim C9: wrapping `x` in `sin` does not decrease the
score. -/
theorem claimC9_witness :
    complexidadeScore .sym ≤ complexidadeScore (.func .sin .sym) :=
  claimC9_theorem .sym (.func .sin .sym) (AddsOp.wrapFunc .sin .sym)

/-- Claim C10: when the complexity analysis fails internally the
analyser reports the fixed score 999, which is strictly below the
default complexity ceiling 1000, so the validation gate never rejects
such an expression as too complex — analysis failure is fail-open. -/
theorem claimC10_theorem (msg : String) :
    (analisar_complexidade_funcao (.error msg)).complexidade = 999 ∧
      999 < max_function_complexity ∧
      rejeitadaPorComplexidade (analisar_complexidade_funcao (.error msg)) =
        false := by
  refine ⟨rfl, by decide, rfl⟩

/-- Claim C5 (amended): the symbolic resolver tries exactly the four
strategies in order, records the first succeeding one as the method
used, and reports failure (`NoAntiderivativeFound`) exactly when all
four fail; strategy 4 computes `∫ v·du` by a single direct
`sp.integrate` call (no recursion into the resolver, no depth bound). -/
theorem claimC5_amended (o : SymOracles) (e : SymExpr) :
    (calcular_integral_simbolica_avancada o e).sucesso =
        (strat1 o e || strat2 o e || strat3 o e || strat4 o e) ∧
      (calcular_integral_simbolica_avancada o e).metodo =
        (if strat1 o e then some ("integração_direta")
         else if strat2 o e then some ("expansão_serie")
         else if strat3 o e then some ("simplificação_prévia")
         else if strat4 o e then some ("integração_por_partes")
         else none) := by
  rcases h1 : o.integrate e with _ | a1
  · rcases h2 : (o.seriesTrunc e).bind o.integrate with _ | a2
    · rcases h3 : o.integrate (o.simplifyE e) with _ | a3
      · cases e with
        | mul a b =>
          rcases h4 : orderedFactors (SymExpr.mul a b) with _ | ⟨u, ds⟩
          · simp [calcular_integral_simbolica_avancada, strat1, strat2,
              strat3, strat4, h1, h2, h3, h4]
          · rcases ds with _ | ⟨d, ds⟩
            · simp [calcular_integral_simbolica_avancada, strat1, strat2,
                strat3, strat4, h1, h2, h3, h4]
            · rcases h5 : o.integrate (mulList (d :: ds)) with _ | v
              · simp [calcular_integral_simbolica_avancada, strat1, strat2,
                  strat3, strat4, h1, h2, h3, h4, h5]
              · rcases h6 : o.integrate (SymExpr.mul v (o.diffE u)) with _ | w
                · simp [calcular_integral_simbolica_avancada, strat1, strat2,
                    strat3, strat4, h1, h2, h3, h4, h5, h6]
                · simp [calcular_integral_simbolica_avancada, strat1, strat2,
                    strat3, strat4, h1, h2, h3, h4, h5, h6]
        | numRat q =>
          simp [calcular_integral_simbolica_avancada, strat1, strat2,
            strat3, strat4, h1, h2, h3]
        | numFloat q =>
          simp [calcular_integral_simbolica_avancada, strat1, strat2,
            strat3, strat4, h1, h2, h3]
        | sym =>
          simp [calcular_integral_simbolica_avancada, strat1, strat2,
            strat3, strat4, h1, h2, h3]
        | add a b =>
          simp [calcular_integral_simbolica_avancada, strat1, strat2,
            strat3, strat4, h1, h2, h3]
        | pow a b =>
          simp [calcular_integral_simbolica_avancada, strat1, strat2,
            strat3, strat4, h1, h2, h3]
        | func k a =>
          simp [calcular_integral_simbolica_avancada, strat1, strat2,
            strat3, strat4, h1, h2, h3]
      · simp [calcular_integral_simbolica_avancada, strat1, strat2,
          strat3, h1, h2, h3]
    · simp [calcular_integral_simbolica_avancada, strat1, strat2, h1, h2]
  · simp [calcular_integral_simbolica_avancada, strat1, h1]

/-- Claim C5 (refuted as stated, recursion part): under the oracle
`oC5` the source's resolver fails on the product `x * exp(x)` (the
single direct integration of `v·du` raises), while the resolver as the
claim words it — recursing into the full strategy chain for `∫ v·du`
with depth bound 3 — succeeds via the series strategy of the recursive
call.  The code therefore does not implement the claimed recursion. -/
theorem claimC5_counterexample :
    (calcular_integral_simbolica_avancada oC5 e0C5).sucesso = false ∧
      (resolverClaim oC5 3 e0C5).isSome = true := by
  constructor
  · decide
  · decide

/-- Claim C6 (amended): when the selected `adaptive` or `fixed` method
raises, the integrator retries with the bare no-tolerance
`quad(func, a, b)` and returns its value with the `Fallback Simples` tag
carrying the primary's exception text; when `romberg` raises, the first
retry is adaptive quadrature **with** `epsabs = tolerancia` (tag
`Fallback Adaptativa`), and only that retry's failure reaches the bare
no-tolerance quadrature; a typed wrapped `ValueError` is propagated only
when the bare fallback also fails, and every error the caller sees is
the wrapped message, never a raw exception. -/
theorem claimC6_amended (o : QuadOracle) (a b tol : ℚ) :
    (∀ e1 r err, o.quadTol a b tol = .error e1 →
      o.quadPlain a b = .ok (r, err) →
      calcular_integral_numerica_avancada o true a b ("adaptive") tol =
        .ok (r, absQ err, ⟨("Fallback Simples"), some e1⟩)) ∧
    (∀ e1 r err, o.simpsonRun a b = .error e1 →
      o.quadPlain a b = .ok (r, err) →
      calcular_integral_numerica_avancada o true a b ("fixed") tol =
        .ok (r, absQ err, ⟨("Fallback Simples"), some e1⟩)) ∧
    (∀ e1 r err, o.rombergRun a b tol = .error e1 →
      o.quadEps a b tol = .ok (r, err) →
      calcular_integral_numerica_avancada o true a b ("romberg") tol =
        .ok (r, absQ err, ⟨("Fallback Adaptativa"), none⟩)) ∧
    (∀ e1 e2 r err, o.rombergRun a b tol = .error e1 →
      o.quadEps a b tol = .error e2 →
      o.quadPlain a b = .ok (r, err) →
      calcular_integral_numerica_avancada o true a b ("romberg") tol =
        .ok (r, absQ err, ⟨("Fallback Simples"), some e2⟩)) ∧
    (∀ metodo s,
      calcular_integral_numerica_avancada o true a b metodo tol =
        .error s →
      ∃ s1, s = ("Erro no cálculo numérico avançado: ") ++ s1) := by
  refine ⟨?_, ?_, ?_, ?_, ?_⟩
  · intro e1 r err h1 h2
    simp [calcular_integral_numerica_avancada, integrar_com_metodo,
      Except.map, h1, h2]
  · intro e1 r err h1 h2
    simp [calcular_integral_numerica_avancada, integrar_com_metodo,
      Except.map, h1, h2]
  · intro e1 r err h1 h2
    simp [calcular_integral_numerica_avancada, integrar_com_metodo,
      Except.map, h1, h2]
  · intro e1 e2 r err h1 h2 h3
    simp [calcular_integral_numerica_avancada, integrar_com_metodo,
      Except.map, h1, h2, h3]
  · intro metodo s h
    rcases hi : integrar_com_metodo o a b metodo tol with e' | r'
    · simp [calcular_integral_numerica_avancada, hi] at h
      exact ⟨e', h.symm⟩
    · simp [calcular_integral_numerica_avancada, hi] at h

/-- Witness for claim C6: under `oC6w` the adaptive method raises
`"falha primária"` and the bare fallback answers `(5, 2)`, so the call
returns the fallback's value tagged `Fallback Simples` carrying the
primary's exception text. -/
theorem claimC6_witness :
    calcular_integral_numerica_avancada oC6w true 0 1 ("adaptive") 1 =
      .ok (5, 2, ⟨("Fallback Simples"), some ("falha primária")⟩) := by
  have h := (claimC6_amended oC6w 0 1 1).1 ("falha primária") 5 2 rfl rfl
  simpa [absQ] using h

/-- Claim C6 (refuted as stated): when the selected method is `romberg`
and it raises, the retry the source performs is **not** the plain
no-tolerance quadrature — under `oC6c` the plain `quad` would return
`99`, yet the call returns `7` from the tolerance-carrying
`quad(..., epsabs=tol)` retry, tagged `Fallback Adaptativa`. -/
theorem claimC6_counterexample :
    integrar_com_metodo oC6c 0 1 ("romberg") 1 =
        .ok (7, 1, ⟨("Fallback Adaptativa"), none⟩) ∧
      oC6c.quadPlain 0 1 = .ok (99, 0) ∧ (7 : ℚ) ≠ 99 := by
  refine ⟨by decide, by decide, by decide⟩

/-- Claim C2 (amended): a cache miss followed by a successful
computation stores the result **provided the computation took less than
10 seconds and returned a non-`None` value**; a second identical call
within the TTL is then served from the cache — its result is the cached
value whatever the second computation would produce — and after the two
calls the statistics show exactly one miss and one hit more than
before. -/
theorem claimC2_amended {α : Type} (st : CacheState α) (now now2 : ℚ)
    (key : String) (v : α) (dur dur2 : ℚ) (compute2 : Option α)
    (h1 : cacheLookup st now key = none) (h2 : dur < 10)
    (h3 : now2 < now + st.ttl) :
    (cached_calculation st now key (some v) dur).1 = some v ∧
      (cached_calculation st now key (some v) dur).2.misses =
        st.misses + 1 ∧
      (cached_calculation st now key (some v) dur).2.hits = st.hits ∧
      (cached_calculation (cached_calculation st now key (some v) dur).2
          now2 key compute2 dur2).1 = some v ∧
      (cached_calculation (cached_calculation st now key (some v) dur).2
          now2 key compute2 dur2).2.hits = st.hits + 1 ∧
      (cached_calculation (cached_calculation st now key (some v) dur).2
          now2 key compute2 dur2).2.misses = st.misses + 1 := by
  have hfst :
      cached_calculation st now key (some v) dur =
        (some v, cacheSet { st with misses := st.misses + 1 } now key v) := by
    simp [cached_calculation, cacheGet, h1, h2]
  have hlk2 :
      cacheLookup (cacheSet { st with misses := st.misses + 1 } now key v)
        now2 key = some v := by
    simp [cacheLookup, cacheSet, List.find?_cons, h3]
  have hsnd :
      cached_calculation
          (cacheSet { st with misses := st.misses + 1 } now key v)
          now2 key compute2 dur2 =
        (some v,
          { cacheSet { st with misses := st.misses + 1 } now key v with
              hits :=
                (cacheSet { st with misses := st.misses + 1 } now key v).hits
                  + 1 }) := by
    simp [cached_calculation, cacheGet, hlk2]
  rw [hfst]
  rw [hsnd]
  refine ⟨rfl, by simp [cacheSet], by simp [cacheSet], rfl,
    by simp [cacheSet], by simp [cacheSet]⟩

/-- Witness for claim C2 (amended): on a fresh cache, computing the
value `7` for key `"k"` in 1 second and asking again immediately gives
a hit with the cached value and statistics `(hits, misses) = (1, 1)`. -/
theorem claimC2_witness :
    (cached_calculation (cached_calculation st0 0 ("k") (some 7) 1).2
        0 ("k") none 0).1 = some 7 ∧
      (cached_calculation (cached_calculation st0 0 ("k") (some 7) 1).2
        0 ("k") none 0).2.hits = 1 ∧
      (cached_calculation (cached_calculation st0 0 ("k") (some 7) 1).2
        0 ("k") none 0).2.misses = 1 := by
  have h := claimC2_amended st0 0 0 ("k") 7 1 0 none rfl
    (by norm_num) (by norm_num [st0])
  exact ⟨h.2.2.2.1, h.2.2.2.2.1, h.2.2.2.2.2⟩

/-- Claim C2 (refuted as stated): a successful computation is **not**
always stored — on a fresh cache, a computation that returns `7` but
takes 10 seconds is not cached (the wrapper only stores results of
computations faster than 10 s), so the second identical call misses
again: after two calls the statistics are 0 hits and 2 misses, not one
miss and one hit. -/
theorem claimC2_counterexample :
    (cached_calculation st0 0 ("k") (some 7) 10).1 = some 7 ∧
      (cached_calculation (cached_calculation st0 0 ("k") (some 7) 10).2
        0 ("k") (some 7) 10).2.hits = 0 ∧
      (cached_calculation (cached_calculation st0 0 ("k") (some 7) 10).2
        0 ("k") (some 7) 10).2.misses = 2 := by
  refine ⟨by decide, by decide, by decide⟩

theorem mem_insertAsc {z x : ℚ} {l : List ℚ} :
    z ∈ insertAsc x l ↔ z = x ∨ z ∈ l := by
  induction l with
  | nil => simp [insertAsc]
  | cons y ys ih =>
    by_cases h : x ≤ y
    · simp [insertAsc, h]
    · simp [insertAsc, h, ih]
      tauto

theorem pairwise_insertAsc {x : ℚ} {l : List ℚ}
    (hl : l.Pairwise (· ≤ ·)) :
    (insertAsc x l).Pairwise (· ≤ ·) := by
  induction l with
  | nil => simp [insertAsc]
  | cons y ys ih =>
    rcases List.pairwise_cons.1 hl with ⟨hy, hys⟩
    by_cases h : x ≤ y
    · simp only [insertAsc, if_pos h]
      refine List.pairwise_cons.2 ⟨?_, hl⟩
      intro z hz
      rcases List.mem_cons.1 hz with rfl | hz'
      · exact h
      · exact le_trans h (hy z hz')
    · have hx : y ≤ x := le_of_not_le h
      simp only [insertAsc, if_neg h]
      refine List.pairwise_cons.2 ⟨?_, ih hys⟩
      intro z hz
      rcases mem_insertAsc.1 hz with rfl | hz'
      · exact hx
      · exact hy z hz'

theorem mem_sortedAsc {z : ℚ} {l : List ℚ} :
    z ∈ sortedAsc l ↔ z ∈ l := by
  induction l with
  | nil => simp [sortedAsc]
  | cons x xs ih =>
    show z ∈ insertAsc x (sortedAsc xs) ↔ _
    rw [mem_insertAsc, ih]
    simp

theorem pairwise_sortedAsc (l : List ℚ) :
    (sortedAsc l).Pairwise (· ≤ ·) := by
  induction l with
  | nil => simp [sortedAsc]
  | cons x xs ih => exact pairwise_insertAsc ih

theorem evalfFloat_eq_some {r : SpRoot} {q : ℚ} :
    evalfFloat r = some q ↔ r = .realR q := by
  cases r <;> simp [evalfFloat]

/-- Claim C4 (amended): singularity detection returns exactly the real
(`float`-convertible) denominator roots lying in the closed interval
`[a, b]`, in ascending order, with **no cap on the count** (the
5-element cap lives in the derivative analysis, not here); an
unsolvable denominator yields the empty list instead of an error. -/
theorem claimC4_amended (e : SymExpr) (a b : ℚ) :
    (spSolve (spDenom e) = none → detectar_singularidades e a b = []) ∧
      (∀ zeros, spDenom e ≠ one → spSolve (spDenom e) = some zeros →
        ((detectar_singularidades e a b).Pairwise (· ≤ ·) ∧
          (∀ q : ℚ, q ∈ detectar_singularidades e a b ↔
            (SpRoot.realR q ∈ zeros ∧ a ≤ q ∧ q ≤ b)))) := by
  constructor
  · intro h
    by_cases hd : spDenom e = one <;>
      simp [detectar_singularidades, hd, h]
  · intro zeros hne hz
    constructor
    · simp only [detectar_singularidades, if_neg hne, hz]
      exact pairwise_sortedAsc _
    · intro q
      simp only [detectar_singularidades, if_neg hne, hz]
      rw [mem_sortedAsc]
      simp [List.mem_filter, List.mem_filterMap, evalfFloat_eq_some]

/-- Witness for claim C4 (amended): for `1/x` on `[-1, 1]` the detector
reports the denominator root `0`. -/
theorem claimC4_witness : (0 : ℚ) ∈ detectar_singularidades eInv (-1) 1 := by
  have h := (claimC4_amended eInv (-1) 1).2 [.realR 0] (by decide) (by decide)
  exact (h.2 0).mpr ⟨by decide, by norm_num, by norm_num⟩

/-- Claim C4 (refuted as stated, cap part): for
`1/((x-1)(x-2)(x-3)(x-4)(x-5)(x-6))` on `[0, 7]` the detector returns
all six denominator roots — the returned set is **not** capped at 5
elements. -/
theorem claimC4_counterexample :
    (detectar_singularidades e6 0 7).length = 6 ∧
      ¬ (detectar_singularidades e6 0 7).length ≤ 5 := by
  refine ⟨by decide, by decide⟩

theorem mem_insertSD {z x : ℚ} {l : List ℚ} :
    z ∈ insertSD x l ↔ z = x ∨ z ∈ l := by
  induction l with
  | nil => simp [insertSD]
  | cons y ys ih =>
    by_cases h1 : x < y
    · simp [insertSD, h1]
    · by_cases h2 : x = y
      · subst h2
        simp [insertSD, h1]
      · simp [insertSD, h1, h2, ih]
        tauto

theorem pairwise_insertSD {x : ℚ} {l : List ℚ}
    (hl : l.Pairwise (· < ·)) :
    (insertSD x l).Pairwise (· < ·) := by
  induction l with
  | nil => simp [insertSD]
  | cons y ys ih =>
    rcases List.pairwise_cons.1 hl with ⟨hy, hys⟩
    by_cases h1 : x < y
    · simp only [insertSD, if_pos h1]
      refine List.pairwise_cons.2 ⟨?_, hl⟩
      intro z hz
      rcases List.mem_cons.1 hz with rfl | hz'
      · exact h1
      · exact lt_trans h1 (hy z hz')
    · by_cases h2 : x = y
      · simp only [insertSD, if_neg h1, if_pos h2]
        exact hl
      · have hyx : y < x := lt_of_le_of_ne (not_lt.1 h1) (Ne.symm h2)
        simp only [insertSD, if_neg h1, if_neg h2]
        refine List.pairwise_cons.2 ⟨?_, ih hys⟩
        intro z hz
        rcases mem_insertSD.1 hz with rfl | hz'
        · exact hyx
        · exact hy z hz'

theorem mem_sortedDedup {z : ℚ} {l : List ℚ} :
    z ∈ sortedDedup l ↔ z ∈ l := by
  induction l with
  | nil => simp [sortedDedup]
  | cons x xs ih =>
    show z ∈ insertSD x (sortedDedup xs) ↔ _
    rw [mem_insertSD, ih]
    simp

theorem pairwise_sortedDedup (l : List ℚ) :
    (sortedDedup l).Pairwise (· < ·) := by
  induction l with
  | nil => simp [sortedDedup]
  | cons x xs ih => exact pairwise_insertSD ih

theorem linspace_length (a b : ℚ) (n : ℕ) :
    (linspace a b n).length = n := by
  unfold linspace
  rcases n with _ | _ | n
  · simp
  · simp
  · rw [if_neg (by omega), if_neg (by omega)]
    rw [List.length_map]
    exact List.length_range _

/-- Claim C8 (amended): the sampler is exactly the claimed construction
with the per-singularity windows clamped to the interval
(`max(a, s-delta)` on the left, `min(b, s+delta)` on the right, with
`delta = min(0.1*(b-a), abs(b-a)/20)`); with no singularities it
returns exactly `resolution` evenly spaced points, and with
singularities its output is strictly increasing (deduplicated and
sorted). -/
theorem claimC8_amended (a b : ℚ) (res : ℕ) (sings : List ℚ) :
    gerar_pontos_adaptativos a b res sings =
        gerarPontosAmended a b res sings ∧
      (sings = [] →
        gerar_pontos_adaptativos a b res sings = linspace a b res ∧
          (gerar_pontos_adaptativos a b res sings).length = res) ∧
      (sings ≠ [] →
        (gerar_pontos_adaptativos a b res sings).Pairwise (· < ·)) := by
  refine ⟨rfl, ?_, ?_⟩
  · intro h
    subst h
    exact ⟨by simp [gerar_pontos_adaptativos],
      by simp [gerar_pontos_adaptativos, linspace_length]⟩
  · intro h
    simp only [gerar_pontos_adaptativos, if_neg h]
    exact pairwise_sortedDedup _

/-- Witness for claim C8 (amended): with no singularities the sampler
returns exactly `resolution` points. -/
theorem claimC8_witness :
    (gerar_pontos_adaptativos 0 1 5 []).length = 5 :=
  ((claimC8_amended 0 1 5 []).2.1 rfl).2

/-- Claim C8 (refuted as stated, clamping part): for the interval
`[0, 1]` at resolution 10 with the singularity `1/100`, the claimed
(unclamped) construction contains the point `1/100 - 1/20 = -1/25`,
which lies outside `[0, 1]`; the source clamps the window at
`max(a, s - delta)`, so its output does not contain it — the two
sequences differ. -/
theorem claimC8_counterexample :
    gerarPontosClaim 0 1 10 [1 / 100] ≠
      gerar_pontos_adaptativos 0 1 10 [1 / 100] := by
  intro hEq
  have h1 : ((-1 : ℚ) / 25) ∈ gerarPontosClaim 0 1 10 [1 / 100] := by
    norm_num [gerarPontosClaim, janelaPontosClaim, mem_sortedDedup,
      linspace, epsOff, min_def]
  have h2 : ((-1 : ℚ) / 25) ∉ gerar_pontos_adaptativos 0 1 10 [1 / 100] := by
    norm_num [gerar_pontos_adaptativos, janelaPontos, mem_sortedDedup,
      linspace, epsOff, min_def, max_def, absQ, List.range_succ]
  rw [hEq] at h1
  exact h2 h1
